import Mathlib

/-!
Verification of the Inference Session Controller / Timeline Reconstructor of
the scene_detection_sandbox repository: a shallow embedding of the client-side
controller modules (scene grouping, playback lookup, timeline navigation, log
merging, job polling) together with proofs about them.

Sources embedded:
  * src/static/js/modules/playground/inference_timeline.js (renderTimeline)
  * src/static/js/modules/playground/store.js (store, store.reset)
  * src/unnamed/part_001 (PlayerView: syncPlayer, skipToShot, skipToScene)
  * src/unnamed/part_004 (SessionManager.hydrateSession)
  * src/unnamed/part_009 and src/unnamed/part_000 (logConsole, renderStyledLine)
  * src/unnamed/part_010 (InferenceManager.pollStatus, handleAbort)

Numeric playback times (JS numbers holding small second counts) are modelled
as rationals; JS arrays as lists; nullable JSON fields as Option.
-/

/-- A shot record as fetched from a finished job and stored in
`store.inferenceResults` (fields read by inference_timeline.js and
part_001): `shot_id`, `start_time`, `end_time`, `is_scene_break`,
`image_paths`, and the optional analysis payloads `scene_logic.case_type`
and `logic_analysis.reasoning` (flattened to their text content here). -/
structure Shot where
  shot_id : String
  start_time : ℚ
  end_time : ℚ
  is_scene_break : Bool
  image_paths : List String := []
  case_type : Option String := none
  reasoning_text : Option String := none
deriving Repr, DecidableEq

/-- The scene-grouping loop body of `renderTimeline`
(inference_timeline.js lines 21-36), carrying the current scene buffer.
The JS loop pushes shot 0 without closing (the `idx !== 0` test exempts the
first shot), so the caller seeds the buffer with the first shot; for every
later shot a set `is_scene_break` flag closes the buffer as a finished
scene and opens a new buffer with that shot, and after the scan the final
(always non-empty) buffer is flushed. -/
def groupGo (buf : List Shot) : List Shot → List (List Shot)
  | [] => [buf]
  | s :: rest =>
    if s.is_scene_break then buf :: groupGo [s] rest
    else groupGo (buf ++ [s]) rest

/-- Scene grouping of `renderTimeline`: the empty input renders no scene
blocks (the final flush is guarded by `sceneBuffer.length > 0`), and a
non-empty input opens the first scene with shot 0 regardless of its flag. -/
def groupScenes : List Shot → List (List Shot)
  | [] => []
  | s :: rest => groupGo [s] rest

/-- A run of shots with no scene-break flag never closes the buffer: the
whole run joins the current scene. -/
lemma groupGo_no_break (rest : List Shot) : ∀ buf : List Shot,
    (∀ s ∈ rest, s.is_scene_break = false) → groupGo buf rest = [buf ++ rest] := by
  induction rest with
  | nil => intro buf _; simp [groupGo]
  | cons s rest ih =>
    intro buf h
    have hs : s.is_scene_break = false := h s (by simp)
    have hrest : ∀ x ∈ rest, x.is_scene_break = false := fun x hx => h x (by simp [hx])
    simp [groupGo, hs, ih (buf ++ [s]) hrest]

/-- A run of shots all flagged closes the buffer at every step: each flagged
shot becomes its own scene. -/
lemma groupGo_all_break (rest : List Shot) : ∀ buf : List Shot,
    (∀ s ∈ rest, s.is_scene_break = true) →
    groupGo buf rest = buf :: rest.map (fun s => [s]) := by
  induction rest with
  | nil => intro buf _; simp [groupGo]
  | cons s rest ih =>
    intro buf h
    have hs : s.is_scene_break = true := h s (by simp)
    have hrest : ∀ x ∈ rest, x.is_scene_break = true := fun x hx => h x (by simp [hx])
    simp [groupGo, hs, ih [s] hrest]

/-- The grouping loop loses and duplicates nothing: the scenes concatenate
back to the buffer followed by the scanned shots. -/
lemma groupGo_flatten (rest : List Shot) : ∀ buf : List Shot,
    (groupGo buf rest).flatten = buf ++ rest := by
  induction rest with
  | nil => intro buf; simp [groupGo]
  | cons s rest ih =>
    intro buf
    by_cases hs : s.is_scene_break = true
    · simp [groupGo, hs, ih [s]]
    · simp at hs
      simp [groupGo, hs, ih (buf ++ [s])]

/-- Claim C1: scene grouping. `groupScenes` opens the first scene with shot 0
regardless of its flag, closes the buffer on each later flagged shot, and
flushes the final buffer; consequently the scenes concatenate back to the
input, the empty input yields no scenes, an all-boundary input yields one
scene per shot, a no-boundary input yields a single scene holding all shots,
and boundaries exactly at indices 2 and 5 of an input of length N ≥ 6 yield
three scenes of sizes 2, 3 and N - 5. -/
theorem groupScenes_scene_grouping :
    groupScenes ([] : List Shot) = []
    ∧ (∀ shots : List Shot, (groupScenes shots).flatten = shots)
    ∧ (∀ shots : List Shot, (∀ s ∈ shots, s.is_scene_break = true) →
        groupScenes shots = shots.map (fun s => [s]))
    ∧ (∀ shots : List Shot, shots ≠ [] → (∀ s ∈ shots, s.is_scene_break = false) →
        groupScenes shots = [shots])
    ∧ (∀ shots : List Shot, 6 ≤ shots.length →
        (∀ i (hi : i < shots.length),
          ((shots.get ⟨i, hi⟩).is_scene_break = true ↔ (i = 2 ∨ i = 5))) →
        (groupScenes shots).map List.length = [2, 3, shots.length - 5]) := by
  refine ⟨rfl, ?_, ?_, ?_, ?_⟩
  · intro shots
    cases shots with
    | nil => simp [groupScenes]
    | cons s rest => simpa [groupScenes] using groupGo_flatten rest [s]
  · intro shots h
    cases shots with
    | nil => simp [groupScenes]
    | cons s rest =>
      have hrest : ∀ x ∈ rest, x.is_scene_break = true := fun x hx => h x (by simp [hx])
      simp [groupScenes, groupGo_all_break rest [s] hrest]
  · intro shots hne h
    cases shots with
    | nil => exact absurd rfl hne
    | cons s rest =>
      have hrest : ∀ x ∈ rest, x.is_scene_break = false := fun x hx => h x (by simp [hx])
      simp [groupScenes, groupGo_no_break rest [s] hrest]
  · intro shots h6 hb
    match shots, h6 with
    | a0 :: a1 :: a2 :: a3 :: a4 :: a5 :: rest, _ =>
      have f0 : a0.is_scene_break = false := by simpa using (hb 0 (by simp))
      have f1 : a1.is_scene_break = false := by simpa using (hb 1 (by simp))
      have f2 : a2.is_scene_break = true := (hb 2 (by simp)).mpr (Or.inl rfl)
      have f3 : a3.is_scene_break = false := by simpa using (hb 3 (by simp))
      have f4 : a4.is_scene_break = false := by simpa using (hb 4 (by simp))
      have f5 : a5.is_scene_break = true := (hb 5 (by simp)).mpr (Or.inr rfl)
      have frest : ∀ x ∈ rest, x.is_scene_break = false := by
        intro x hx
        obtain ⟨⟨k, hk⟩, rfl⟩ := List.mem_iff_get.mp hx
        have hlen : k + 6 < (a0 :: a1 :: a2 :: a3 :: a4 :: a5 :: rest).length := by
          simp; omega
        have := hb (k + 6) hlen
        have hget : (a0 :: a1 :: a2 :: a3 :: a4 :: a5 :: rest).get ⟨k + 6, hlen⟩
            = rest.get ⟨k, hk⟩ := rfl
        rw [hget] at this
        simpa using this
      have hscan : groupGo [a0] (a1 :: a2 :: a3 :: a4 :: a5 :: rest)
          = [a0, a1] :: [a2, a3, a4] :: [a5 :: rest] := by
        have hlast : groupGo [a5] rest = [a5 :: rest] := by
          simpa using groupGo_no_break rest [a5] frest
        simp [groupGo, f1, f2, f3, f4, f5, hlast]
      simp [groupScenes, hscan]

/-- Whether playback time `t` falls inside shot `s`: the scan predicate of
`syncPlayer`'s `ontimeupdate` handler (part_001 lines 43-45),
`t >= s.start_time && t < s.end_time` — a half-open interval, end exclusive. -/
def shotActive (s : Shot) (t : ℚ) : Bool :=
  decide (s.start_time ≤ t) && decide (t < s.end_time)

/-- The JS `Array.prototype.findIndex` scan over the shot list as used by `syncPlayer`
(part_001 line 43): the lowest index whose shot contains `t`, `none` for the
JS sentinel -1 (t precedes every shot or falls in a gap). -/
def findActiveIdx (t : ℚ) : List Shot → Option ℕ
  | [] => none
  | s :: rest =>
    if shotActive s t then some 0
    else (findActiveIdx t rest).map (· + 1)

/-- The fields of the playground store read and written by the navigation
code (store.js lines 9-37): the active session id, the fetched shot list
`inferenceResults`, and the cursor `currentShotIndex` (-1 when none). -/
structure StoreState where
  activeSessionId : Option String
  inferenceResults : List Shot
  currentShotIndex : Int
deriving Repr, DecidableEq

/-- The store's initial values (store.js lines 9-19). -/
def initialStore : StoreState :=
  { activeSessionId := none, inferenceResults := [], currentShotIndex := -1 }

/-- Effect of `store.reset()` (store.js lines 29-37): every modelled field returns to
its initial value (the video/asset fields it also clears are not modelled). -/
def storeReset (_st : StoreState) : StoreState := initialStore

/-- State effect of `SessionManager.hydrateSession` (part_004 lines 51-52):
it assigns `store.inferenceResults = data.shots` and
`store.activeSessionId = sessionId`; it does not touch
`store.currentShotIndex`. -/
def hydrateSession (st : StoreState) (sessionId : String) (shots : List Shot)
    : StoreState :=
  { st with inferenceResults := shots, activeSessionId := some sessionId }

/-- One run of `syncPlayer`'s `ontimeupdate` handler at playback time `t`
(part_001 lines 39-60): find the shot under the playhead; when found and
different from the cursor, move the cursor there and emit the highlight
(selection-changed) event carrying the shot's id. -/
def syncTick (st : StoreState) (t : ℚ) : StoreState × Option String :=
  match findActiveIdx t st.inferenceResults with
  | none => (st, none)
  | some i =>
    if (i : Int) = st.currentShotIndex then (st, none)
    else
      match st.inferenceResults[i]? with
      | some shot =>
        ({ st with currentShotIndex := (i : Int) }, some shot.shot_id)
      | none => ({ st with currentShotIndex := (i : Int) }, none)

/-- The clamp `Math.max(0, Math.min(i, len - 1))` of skipToShot (part_001 lines 70-73). -/
def clampIdx (i : Int) (len : ℕ) : Int := max 0 (min i ((len : Int) - 1))

/-- Fallback shot for list indexing; the guarded JS code never reaches it. -/
def defaultShot : Shot :=
  { shot_id := "", start_time := 0, end_time := 0, is_scene_break := false }

/-- The outcome of a navigation call (part_001): the store (which the call
may leave untouched), the player's playback position, and the highlight
(selection-changed) event the call itself emits, if any. -/
structure NavResult where
  store : StoreState
  videoTime : ℚ
  highlightEvent : Option String
deriving Repr, DecidableEq

/-- Navigation by `skipToShot(offset)` (part_001 lines 67-82): a no-op on an empty shot
list; otherwise clamp `currentShotIndex + offset` into range, seek the
player to that shot's `start_time`, and, when the player is paused, emit the
highlight event directly (a playing player receives it from the seek's own
`timeupdate` tick instead). The function itself writes no store field. -/
def skipToShot (st : StoreState) (videoTime : ℚ) (paused : Bool) (offset : Int)
    : NavResult :=
  if st.inferenceResults.isEmpty then ⟨st, videoTime, none⟩
  else
    let newIdx := clampIdx (st.currentShotIndex + offset) st.inferenceResults.length
    let target := st.inferenceResults.getD newIdx.toNat defaultShot
    ⟨st, target.start_time, if paused then some target.shot_id else none⟩

/-- The linear scan of `skipToScene` (part_001 lines 91-103): walk from
`idx` in steps of `step` (±1) while the index stays in range, stopping at
the first shot whose `is_scene_break` is set. The while-loop visits at most
`shots.length` in-range indices, so that much fuel is exact. -/
def sceneScan (shots : List Shot) (step : Int) : Int → ℕ → Option ℕ
  | _, 0 => none
  | idx, fuel + 1 =>
    if 0 ≤ idx ∧ idx.toNat < shots.length then
      if (shots.getD idx.toNat defaultShot).is_scene_break then some idx.toNat
      else sceneScan shots step (idx + step) fuel
    else none

/-- Navigation by `skipToScene(offset)` (part_001 lines 88-104): a no-op on an empty shot
list; otherwise scan from `currentShotIndex + offset` in the direction of
the offset for the nearest flagged shot; when none is found the call leaves
everything unchanged, otherwise it seeks the player there and emits the
highlight event when paused, exactly as `skipToShot` does. -/
def skipToScene (st : StoreState) (videoTime : ℚ) (paused : Bool) (offset : Int)
    : NavResult :=
  if st.inferenceResults.isEmpty then ⟨st, videoTime, none⟩
  else
    let step : Int := if 0 < offset then 1 else -1
    match sceneScan st.inferenceResults step (st.currentShotIndex + offset)
        (st.inferenceResults.length + 1) with
    | some i =>
      let target := st.inferenceResults.getD i defaultShot
      ⟨st, target.start_time, if paused then some target.shot_id else none⟩
    | none => ⟨st, videoTime, none⟩

/-- Setting `videoPlayer.currentTime` inside `skipToShot` makes the player
fire a `timeupdate` event (also while paused), which `syncPlayer`'s handler
receives; `skipBySegment` is that composite: the skip followed by the
handler's tick at the new playback position. Returns the resulting store,
playback position and the selection-changed events emitted along the way. -/
def skipBySegment (st : StoreState) (videoTime : ℚ) (paused : Bool) (offset : Int)
    : StoreState × ℚ × List String :=
  let r := skipToShot st videoTime paused offset
  let (st2, ev) := syncTick r.store r.videoTime
  (st2, r.videoTime, r.highlightEvent.toList ++ ev.toList)

/-- The scan `findActiveIdx` returns `some i` exactly when shot `i` contains `t` and
no earlier shot does: the JS `findIndex` contract. -/
lemma findActiveIdx_some_iff (t : ℚ) : ∀ (shots : List Shot) (i : ℕ),
    findActiveIdx t shots = some i ↔
      ((∃ s, shots[i]? = some s ∧ shotActive s t = true) ∧
       ∀ j, j < i → ∀ s', shots[j]? = some s' → shotActive s' t = false) := by
  intro shots
  induction shots with
  | nil => intro i; simp [findActiveIdx]
  | cons s rest ih =>
    intro i
    cases i with
    | zero =>
      by_cases h : shotActive s t = true
      · simp [findActiveIdx, h]
      · simp [findActiveIdx, h, Option.map_eq_some']
    | succ k =>
      by_cases h : shotActive s t = true
      · simp [findActiveIdx, h]
        intro s' hs' hact
        exact ⟨0, by omega, s, by simp, h⟩
      · have hfalse : shotActive s t = false := by simpa using h
        have hEq : findActiveIdx t (s :: rest) = (findActiveIdx t rest).map (· + 1) := by
          simp [findActiveIdx, hfalse]
        rw [hEq]
        constructor
        · intro hmap
          rw [Option.map_eq_some'] at hmap
          obtain ⟨a, ha, hak⟩ := hmap
          simp at hak
          subst hak
          obtain ⟨⟨s', hs', hact⟩, hmin⟩ := (ih a).mp ha
          refine ⟨⟨s', by simpa using hs', hact⟩, ?_⟩
          intro j hj s'' hs''
          cases j with
          | zero =>
            simp at hs''
            subst hs''
            exact hfalse
          | succ j' =>
            simp at hs''
            exact hmin j' (by omega) s'' hs''
        · rintro ⟨⟨s', hs', hact⟩, hmin⟩
          rw [Option.map_eq_some']
          refine ⟨k, ?_, rfl⟩
          apply (ih k).mpr
          refine ⟨⟨s', by simpa using hs', hact⟩, ?_⟩
          intro j hj s'' hs''
          exact hmin (j + 1) (by omega) s'' (by simpa using hs'')

/-- The scan `findActiveIdx` returns `none` exactly when no shot contains `t`:
`t` precedes every shot or falls in a gap between shots. -/
lemma findActiveIdx_none_iff (t : ℚ) : ∀ shots : List Shot,
    findActiveIdx t shots = none ↔ ∀ s ∈ shots, shotActive s t = false := by
  intro shots
  induction shots with
  | nil => simp [findActiveIdx]
  | cons s rest ih =>
    by_cases h : shotActive s t = true
    · simp [findActiveIdx, h]
    · simp [findActiveIdx, h, Option.map_eq_none', ih]

/-- An index found by `findActiveIdx` is in range of the shot list. -/
lemma findActiveIdx_lt_length {t : ℚ} {shots : List Shot} {i : ℕ}
    (h : findActiveIdx t shots = some i) : i < shots.length := by
  obtain ⟨⟨s, hs, _⟩, _⟩ := (findActiveIdx_some_iff t shots i).mp h
  exact (List.getElem?_eq_some_iff.mp hs).1

/-- The scan predicate unfolded to its arithmetic meaning: shot `s` is under
the playhead at `t` exactly when `start_time ≤ t < end_time`. -/
lemma shotActive_iff {s : Shot} {t : ℚ} :
    shotActive s t = true ↔ (s.start_time ≤ t ∧ t < s.end_time) := by
  simp [shotActive]

/-- The `shotActive` predicate is false exactly outside the half-open span. -/
lemma shotActive_eq_false_iff {s : Shot} {t : ℚ} :
    shotActive s t = false ↔ ¬(s.start_time ≤ t ∧ t < s.end_time) := by
  rw [← shotActive_iff]
  simp

/-- The two-shot fixture of the spec's test: shots (0,0,5) and (5,5,9). -/
def demoShots : List Shot :=
  [{ shot_id := "0", start_time := 0, end_time := 5, is_scene_break := false },
   { shot_id := "5", start_time := 5, end_time := 9, is_scene_break := false }]

/-- Claim C2: playback-position lookup. The active-segment scan of
`syncPlayer` returns the first (lowest-index) shot `i` with
`start_time[i] ≤ t < end_time[i]` (half-open, end exclusive) and `none`
when no shot contains `t` (playhead before all shots or in a gap); on the
fixture [(0,0,5),(5,5,9)] it yields index 1 at t = 5, none at t = 9 and
none at t = -1. -/
theorem findActiveIdx_playback_lookup :
    (∀ (shots : List Shot) (t : ℚ) (i : ℕ),
        findActiveIdx t shots = some i ↔
          ((∃ s, shots[i]? = some s ∧ s.start_time ≤ t ∧ t < s.end_time) ∧
           ∀ j, j < i → ∀ s', shots[j]? = some s' →
             ¬(s'.start_time ≤ t ∧ t < s'.end_time)))
    ∧ (∀ (shots : List Shot) (t : ℚ),
        findActiveIdx t shots = none ↔
          ∀ s ∈ shots, ¬(s.start_time ≤ t ∧ t < s.end_time))
    ∧ findActiveIdx 5 demoShots = some 1
    ∧ findActiveIdx 9 demoShots = none
    ∧ findActiveIdx (-1) demoShots = none := by
  refine ⟨?_, ?_, ?_, ?_, ?_⟩
  · intro shots t i
    rw [findActiveIdx_some_iff]
    constructor
    · rintro ⟨⟨s, hs, hact⟩, hmin⟩
      exact ⟨⟨s, hs, shotActive_iff.mp hact⟩,
        fun j hj s' hs' => shotActive_eq_false_iff.mp (hmin j hj s' hs')⟩
    · rintro ⟨⟨s, hs, hact⟩, hmin⟩
      exact ⟨⟨s, hs, shotActive_iff.mpr hact⟩,
        fun j hj s' hs' => shotActive_eq_false_iff.mpr (hmin j hj s' hs')⟩
  · intro shots t
    rw [findActiveIdx_none_iff]
    exact ⟨fun h s hs => shotActive_eq_false_iff.mp (h s hs),
      fun h s hs => shotActive_eq_false_iff.mpr (h s hs)⟩
  · decide
  · decide
  · decide

/-- The clamp of `skipToShot` lands in `[0, len)` whenever the list is
non-empty, for every cursor value and offset. -/
lemma clampIdx_bounds {len : ℕ} (hlen : 0 < len) (i : Int) :
    0 ≤ clampIdx i len ∧ clampIdx i len < (len : Int) := by
  unfold clampIdx
  omega

/-- A single-shot session used to exhibit the stale cursor after hydration. -/
def smallSession : List Shot :=
  [{ shot_id := "b", start_time := 0, end_time := 2, is_scene_break := false }]

/-- Claim C8: segment skip clamping. On a non-empty loaded shot sequence
whose shots have positive duration and do not overlap, `skipToShot(offset)`
targets index `clamp(current + offset, 0, count-1)` — in range, clamped and
never wrapped — the seek-triggered `timeupdate` tick lands the cursor on
exactly that index, and when the player is paused the call itself emits a
selection-changed (highlight) event. -/
theorem skipBySegment_clamping (st : StoreState) (vt : ℚ) (paused : Bool)
    (offset : Int)
    (hne : st.inferenceResults ≠ [])
    (hdur : ∀ s ∈ st.inferenceResults, s.start_time < s.end_time)
    (hsep : st.inferenceResults.Pairwise (fun a b => a.end_time ≤ b.start_time)) :
    0 ≤ clampIdx (st.currentShotIndex + offset) st.inferenceResults.length ∧
    clampIdx (st.currentShotIndex + offset) st.inferenceResults.length <
      (st.inferenceResults.length : Int) ∧
    (skipBySegment st vt paused offset).1.currentShotIndex =
      clampIdx (st.currentShotIndex + offset) st.inferenceResults.length ∧
    (paused = true → (skipBySegment st vt paused offset).2.2 ≠ []) := by
  have hlen : 0 < st.inferenceResults.length := List.length_pos.mpr hne
  obtain ⟨hc0, hclt⟩ := clampIdx_bounds hlen (st.currentShotIndex + offset)
  set c := clampIdx (st.currentShotIndex + offset) st.inferenceResults.length with hc
  have hk : c.toNat < st.inferenceResults.length := by omega
  have hcast : (c.toNat : Int) = c := Int.toNat_of_nonneg hc0
  set k := c.toNat with hkdef
  set L := st.inferenceResults with hL
  have htarget : L.getD k defaultShot = L.get ⟨k, hk⟩ := by
    simp [List.getD_eq_getElem?_getD, List.getElem?_eq_getElem hk]
  -- the skip itself: seeks to the clamped target's start time
  have hskip : skipToShot st vt paused offset =
      ⟨st, (L.get ⟨k, hk⟩).start_time,
        if paused then some (L.get ⟨k, hk⟩).shot_id else none⟩ := by
    simp only [skipToShot, List.isEmpty_iff, hL]
    rw [if_neg hne]
    simp [← hc, ← hkdef, List.getElem?_eq_getElem hk]
  -- the seek-triggered sync tick finds exactly the clamped index
  have hfind : findActiveIdx (L.get ⟨k, hk⟩).start_time L = some k := by
    apply (findActiveIdx_some_iff _ L k).mpr
    refine ⟨⟨L.get ⟨k, hk⟩, by simp [List.getElem?_eq_getElem hk], ?_⟩, ?_⟩
    · exact shotActive_iff.mpr ⟨le_refl _, hdur _ (L.get_mem _ _)⟩
    · intro j hj s' hs'
      have hjlt : j < L.length := lt_trans hj hk
      have hs'j : s' = L.get ⟨j, hjlt⟩ := by
        have := List.getElem?_eq_getElem hjlt
        rw [this] at hs'
        exact (Option.some_inj.mp hs').symm
      have hle : s'.end_time ≤ (L.get ⟨k, hk⟩).start_time := by
        rw [hs'j]
        exact List.pairwise_iff_getElem.mp hsep j k hjlt hk hj
      apply shotActive_eq_false_iff.mpr
      rintro ⟨-, hlt⟩
      exact absurd (lt_of_lt_of_le hlt hle) (lt_irrefl _)
  refine ⟨hc0, hclt, ?_, ?_⟩
  · show (skipBySegment st vt paused offset).1.currentShotIndex = c
    unfold skipBySegment
    rw [hskip]
    simp only [syncTick, hL, hfind]
    by_cases hsame : (k : Int) = st.currentShotIndex
    · rw [if_pos hsame]
      simpa [← hsame] using hcast
    · rw [if_neg hsame]
      cases hget : L[k]? with
      | none => simp [List.getElem?_eq_getElem hk] at hget
      | some shot => simpa using hcast
  · intro hp
    unfold skipBySegment
    rw [hskip]
    simp [hp]

/-- A five-shot store with the cursor at index 0, the fixture of the
skip-clamping test (unit-length shots 0-1, 1-2, 2-3, 3-4, 4-5). -/
def fiveShotStore : StoreState :=
  { activeSessionId := some "s5",
    inferenceResults :=
      [{ shot_id := "s0", start_time := 0, end_time := 1, is_scene_break := false },
       { shot_id := "s1", start_time := 1, end_time := 2, is_scene_break := false },
       { shot_id := "s2", start_time := 2, end_time := 3, is_scene_break := false },
       { shot_id := "s3", start_time := 3, end_time := 4, is_scene_break := false },
       { shot_id := "s4", start_time := 4, end_time := 5, is_scene_break := false }],
    currentShotIndex := 0 }

/-- Witness for the skip-clamping theorem: from index 0 with offset -3 on the
five-element sequence, paused, the cursor clamps to 0 and a selection-changed
event still fires. -/
theorem skipBySegment_clamping_witness :
    (skipBySegment fiveShotStore 0 true (-3)).1.currentShotIndex = 0 ∧
    (skipBySegment fiveShotStore 0 true (-3)).2.2 ≠ [] := by
  have h := skipBySegment_clamping fiveShotStore 0 true (-3)
    (by decide) (by decide) (by decide)
  have hc : clampIdx (fiveShotStore.currentShotIndex + -3)
      fiveShotStore.inferenceResults.length = 0 := by decide
  exact ⟨by rw [h.2.2.1, hc], h.2.2.2 rfl⟩

/-- Claim C9 counterexample fixture: hydrate a two-shot session, sync the
playhead into its second shot (cursor becomes 1), then hydrate a different
one-shot session. `hydrateSession` leaves the cursor at 1, which is neither
-1 nor a valid index of the new one-shot sequence — the claimed reset to -1
and the range invariant both fail. -/
theorem hydrate_leaves_cursor_out_of_range :
    (hydrateSession
        (syncTick (hydrateSession initialStore ("A") demoShots) 6).1
        ("B") smallSession).currentShotIndex = 1 ∧
    (hydrateSession
        (syncTick (hydrateSession initialStore ("A") demoShots) 6).1
        ("B") smallSession).inferenceResults.length = 1 ∧
    ¬((hydrateSession
        (syncTick (hydrateSession initialStore ("A") demoShots) 6).1
        ("B") smallSession).currentShotIndex = -1 ∨
      (0 ≤ (hydrateSession
          (syncTick (hydrateSession initialStore ("A") demoShots) 6).1
          ("B") smallSession).currentShotIndex ∧
       (hydrateSession
          (syncTick (hydrateSession initialStore ("A") demoShots) 6).1
          ("B") smallSession).currentShotIndex <
        ((hydrateSession
            (syncTick (hydrateSession initialStore ("A") demoShots) 6).1
            ("B") smallSession).inferenceResults.length : Int))) := by
  decide

/-- Claim C9 (amended): cursor lifecycle. The cursor starts at -1 with no
segments loaded; `store.reset()` restores exactly that state; a playback
sync tick either leaves the cursor alone or writes an in-range index; but
`hydrateSession` replaces the shot set and session id while leaving the
cursor untouched, so loading a different session does not reset it to -1
and a stale cursor can sit out of range of the new shot set until the next
sync or navigation write. -/
theorem cursor_lifecycle :
    (initialStore.currentShotIndex = -1 ∧ initialStore.inferenceResults = [])
    ∧ (∀ st, storeReset st = initialStore)
    ∧ (∀ (st : StoreState) (t : ℚ),
        (syncTick st t).1.currentShotIndex = st.currentShotIndex ∨
        (0 ≤ (syncTick st t).1.currentShotIndex ∧
         (syncTick st t).1.currentShotIndex <
           (st.inferenceResults.length : Int)))
    ∧ (∀ (st : StoreState) (sid : String) (shots : List Shot),
        (hydrateSession st sid shots).currentShotIndex = st.currentShotIndex ∧
        (hydrateSession st sid shots).inferenceResults = shots ∧
        (hydrateSession st sid shots).activeSessionId = some sid) := by
  refine ⟨⟨rfl, rfl⟩, fun _ => rfl, ?_, fun _ _ _ => ⟨rfl, rfl, rfl⟩⟩
  intro st t
  cases hfind : findActiveIdx t st.inferenceResults with
  | none => left; simp [syncTick, hfind]
  | some i =>
    have hlt : i < st.inferenceResults.length := findActiveIdx_lt_length hfind
    by_cases hsame : (i : Int) = st.currentShotIndex
    · left; simp [syncTick, hfind, hsame]
    · right
      cases hget : st.inferenceResults[i]? with
      | none => simp [syncTick, hfind, hsame, hget]; omega
      | some shot => simp [syncTick, hfind, hsame, hget]; omega

/-- Claim C10: on an empty loaded shot sequence, both navigation calls are
total no-ops for every cursor value, playback position, pause state and
offset: the store (cursor included) is unchanged, the playback position is
unchanged, and no selection-changed event is emitted. -/
theorem skip_on_empty_noop (st : StoreState) (vt : ℚ) (paused : Bool)
    (offset : Int) (hempty : st.inferenceResults = []) :
    skipToShot st vt paused offset = ⟨st, vt, none⟩ ∧
    skipToScene st vt paused offset = ⟨st, vt, none⟩ := by
  constructor
  · unfold skipToShot
    rw [if_pos (by simp [hempty])]
  · unfold skipToScene
    rw [if_pos (by simp [hempty])]

/-- Witness for the empty-sequence no-op: the freshly reset store with an
arbitrary playback position and offsets in both directions. -/
theorem skip_on_empty_noop_witness :
    skipToShot initialStore 3 true (-7) = ⟨initialStore, 3, none⟩ ∧
    skipToScene initialStore 3 false 2 = ⟨initialStore, 3, none⟩ := by
  exact ⟨(skip_on_empty_noop initialStore 3 true (-7) rfl).1,
    (skip_on_empty_noop initialStore 3 false 2 rfl).2⟩

/-- Whether `pat` occurs at the head of `s`: the step of JS
`String.prototype.includes`. -/
def startsWithL : List Char → List Char → Bool
  | _, [] => true
  | [], _ :: _ => false
  | c :: cs, p :: ps => c = p && startsWithL cs ps

/-- JS `rawLine.includes(pat)` over the character lists: `pat` occurs
somewhere inside `s`. -/
def hasSubstrL : List Char → List Char → Bool
  | [], pat => pat.isEmpty
  | s@(_ :: rest), pat => startsWithL s pat || hasSubstrL rest pat

/-- JS `s.includes(pat)` on strings. -/
def containsSub (s pat : String) : Bool := hasSubstrL s.data pat.data

/-- The streaming-token signature of `renderStyledLine` (part_009 line 73,
part_000 line 244): the line carries the `[TOKEN]` tag and the
`Thinking...` marker. -/
def isTokenUpdate (line : String) : Bool :=
  containsSub line ("[TOKEN]") && containsSub line ("Thinking...")

/-- The boundary-scan signature of `renderStyledLine` (part_009 line 76,
part_000 line 248): the line carries the `[SHOT_DETECT]` tag and the
`Boundary detection at frame` marker. -/
def isShotUpdate (line : String) : Bool :=
  containsSub line ("[SHOT_DETECT]") && containsSub line ("Boundary detection at frame")

/-- Rendering by `renderStyledLine` (part_009 lines 47-110): a rendered console entry is
modelled by its text content — the styling pass only wraps substrings of the
raw line in markup spans, so `lastElementChild.textContent` equals the raw
line that produced the entry, and the signature tests on it are the
`includes` tests above. If the new raw line carries a replaceable signature
and the last rendered entry carries the same signature, the new line
replaces that entry in place; otherwise a new entry is appended. Returns
the rendered lines and whether the call replaced rather than appended. -/
def renderStyledLine (rendered : List String) (raw : String)
    : List String × Bool :=
  if isTokenUpdate raw || isShotUpdate raw then
    match rendered.getLast? with
    | some last =>
      if isTokenUpdate raw && isTokenUpdate last then
        (rendered.dropLast ++ [raw], true)
      else if isShotUpdate raw && isShotUpdate last then
        (rendered.dropLast ++ [raw], true)
      else (rendered ++ [raw], false)
    | none => (rendered ++ [raw], false)
  else (rendered ++ [raw], false)

/-- The Log Merger's state (part_009 lines 6, 22-32): the module-level
`lastRenderedLogCount` counter and the console's rendered entries. -/
structure ConsoleState where
  lastRenderedLogCount : ℕ
  rendered : List String
deriving Repr, DecidableEq

/-- Feeding a batch of raw lines through `renderStyledLine` in order. -/
def feedLines (rendered : List String) (lines : List String) : List String :=
  lines.foldl (fun r line => (renderStyledLine r line).1) rendered

/-- The snapshot (array) branch of `logConsole` (part_009 lines 26-32,
identical in part_000 lines 196-202): take the suffix of the snapshot
beyond `lastRenderedLogCount`; when it is empty return without touching
anything; otherwise render each new line and set the counter to the
snapshot's length. Returns the new state and the number of rendered
events. -/
def logConsoleArr (st : ConsoleState) (content : List String)
    : ConsoleState × ℕ :=
  let newLines := content.drop st.lastRenderedLogCount
  if newLines.isEmpty then (st, 0)
  else
    ({ lastRenderedLogCount := content.length,
       rendered := feedLines st.rendered newLines }, newLines.length)

/-- One `renderStyledLine` call never shrinks the rendered list: a replace
keeps the length, an append grows it by one. -/
lemma renderStyledLine_length (rendered : List String) (raw : String) :
    rendered.length ≤ (renderStyledLine rendered raw).1.length := by
  unfold renderStyledLine
  by_cases hsig : (isTokenUpdate raw || isShotUpdate raw) = true
  · rw [if_pos hsig]
    cases hlast : rendered.getLast? with
    | none => simp
    | some last =>
      have hne : rendered ≠ [] := by
        intro h
        rw [h] at hlast
        simp at hlast
      have hpos : 0 < rendered.length := List.length_pos.mpr hne
      by_cases h1 : (isTokenUpdate raw && isTokenUpdate last) = true
      · simp [h1, List.length_dropLast]
        omega
      · by_cases h2 : (isShotUpdate raw && isShotUpdate last) = true
        · simp [h1, h2, List.length_dropLast]
          omega
        · simp [h1, h2]
  · rw [if_neg hsig]
    simp

/-- Feeding any batch never shrinks the rendered list. -/
lemma feedLines_length (lines : List String) : ∀ rendered : List String,
    rendered.length ≤ (feedLines rendered lines).length := by
  induction lines with
  | nil => intro rendered; simp [feedLines]
  | cons l rest ih =>
    intro rendered
    calc rendered.length ≤ (renderStyledLine rendered l).1.length :=
          renderStyledLine_length rendered l
      _ ≤ (feedLines (renderStyledLine rendered l).1 rest).length :=
          ih (renderStyledLine rendered l).1
      _ = (feedLines rendered (l :: rest)).length := rfl

/-- Claim C3: snapshot idempotence of the Log Merger. A snapshot no longer
than the counter is a no-op (state untouched, zero rendered events); a
longer snapshot renders exactly the suffix beyond the counter and sets the
counter to the snapshot length; the counter never decreases; feeding the
same snapshot again is always a no-op with zero additional events; and no
call ever removes rendered lines. -/
theorem logConsole_snapshot_merge :
    (∀ (st : ConsoleState) (content : List String),
        content.length ≤ st.lastRenderedLogCount →
        logConsoleArr st content = (st, 0))
    ∧ (∀ (st : ConsoleState) (content : List String),
        st.lastRenderedLogCount < content.length →
        (logConsoleArr st content).1.lastRenderedLogCount = content.length ∧
        (logConsoleArr st content).1.rendered =
          feedLines st.rendered (content.drop st.lastRenderedLogCount) ∧
        (logConsoleArr st content).2 =
          content.length - st.lastRenderedLogCount)
    ∧ (∀ (st : ConsoleState) (content : List String),
        st.lastRenderedLogCount ≤
          (logConsoleArr st content).1.lastRenderedLogCount)
    ∧ (∀ (st : ConsoleState) (content : List String),
        logConsoleArr (logConsoleArr st content).1 content =
          ((logConsoleArr st content).1, 0))
    ∧ (∀ (st : ConsoleState) (content : List String),
        st.rendered.length ≤ (logConsoleArr st content).1.rendered.length) := by
  have hnoop : ∀ (st : ConsoleState) (content : List String),
      content.length ≤ st.lastRenderedLogCount →
      logConsoleArr st content = (st, 0) := by
    intro st content h
    have hdrop : content.drop st.lastRenderedLogCount = [] :=
      List.drop_eq_nil_of_le h
    simp [logConsoleArr, hdrop]
  have hgrow : ∀ (st : ConsoleState) (content : List String),
      st.lastRenderedLogCount < content.length →
      (logConsoleArr st content).1.lastRenderedLogCount = content.length ∧
      (logConsoleArr st content).1.rendered =
        feedLines st.rendered (content.drop st.lastRenderedLogCount) ∧
      (logConsoleArr st content).2 =
        content.length - st.lastRenderedLogCount := by
    intro st content h
    have hne : content.drop st.lastRenderedLogCount ≠ [] := by
      intro hnil
      have := congrArg List.length hnil
      simp at this
      omega
    simp [logConsoleArr, List.isEmpty_iff, hne]
  refine ⟨hnoop, hgrow, ?_, ?_, ?_⟩
  · intro st content
    by_cases h : content.length ≤ st.lastRenderedLogCount
    · rw [hnoop st content h]
    · push_neg at h
      rw [(hgrow st content h).1]
      omega
  · intro st content
    by_cases h : content.length ≤ st.lastRenderedLogCount
    · rw [hnoop st content h]
      exact hnoop st content h
    · push_neg at h
      apply hnoop
      rw [(hgrow st content h).1]
  · intro st content
    by_cases h : content.length ≤ st.lastRenderedLogCount
    · rw [hnoop st content h]
    · push_neg at h
      rw [(hgrow st content h).2.1]
      exact feedLines_length _ _

/-- Witness for the snapshot-merge theorem: a two-line snapshot fed to the
fresh console renders two events and sets the counter to 2; fed again it is
a no-op, and a shrunk one-line snapshot is also a no-op. -/
theorem logConsole_snapshot_merge_witness :
    logConsoleArr ⟨2, [("a"), ("b")]⟩ [("a")] = (⟨2, [("a"), ("b")]⟩, 0) ∧
    (logConsoleArr ⟨0, []⟩ [("a"), ("b")]).1.lastRenderedLogCount = 2 ∧
    logConsoleArr (logConsoleArr ⟨0, []⟩ [("a"), ("b")]).1 [("a"), ("b")] =
      ((logConsoleArr ⟨0, []⟩ [("a"), ("b")]).1, 0) := by
  refine ⟨?_, ?_, ?_⟩
  · exact logConsole_snapshot_merge.1 ⟨2, [("a"), ("b")]⟩ [("a")] (by decide)
  · exact (logConsole_snapshot_merge.2.1 ⟨0, []⟩ [("a"), ("b")] (by decide)).1
  · exact logConsole_snapshot_merge.2.2.2.1 ⟨0, []⟩ [("a"), ("b")]

/-- Claim C4: in-place replacement. A raw line fed to `renderStyledLine`
replaces the last rendered line's content in place if and only if the line
carries a replaceable signature (streaming token update: `[TOKEN]` with
`Thinking...`; boundary-scan progress: `[SHOT_DETECT]` with `Boundary
detection at frame`) and the most recently rendered line carries the same
signature (matched textually); in every other case the line is appended as
a new rendered entry. -/
theorem renderStyledLine_replace_iff (rendered : List String) (raw : String) :
    ((renderStyledLine rendered raw).2 = true ↔
      ∃ last, rendered.getLast? = some last ∧
        ((isTokenUpdate raw = true ∧ isTokenUpdate last = true) ∨
         (isShotUpdate raw = true ∧ isShotUpdate last = true)))
    ∧ ((renderStyledLine rendered raw).2 = true →
        (renderStyledLine rendered raw).1 = rendered.dropLast ++ [raw])
    ∧ ((renderStyledLine rendered raw).2 = false →
        (renderStyledLine rendered raw).1 = rendered ++ [raw]) := by
  unfold renderStyledLine
  by_cases hsig : (isTokenUpdate raw || isShotUpdate raw) = true
  · rw [if_pos hsig]
    cases hlast : rendered.getLast? with
    | none =>
      dsimp only
      refine ⟨?_, by simp, by simp⟩
      simp
    | some last =>
      dsimp only
      by_cases h1 : (isTokenUpdate raw && isTokenUpdate last) = true
      · rw [if_pos h1]
        refine ⟨?_, by simp, by simp⟩
        constructor
        · intro _
          exact ⟨last, rfl, Or.inl (by simpa using h1)⟩
        · intro _; trivial
      · rw [if_neg h1]
        by_cases h2 : (isShotUpdate raw && isShotUpdate last) = true
        · rw [if_pos h2]
          refine ⟨?_, by simp, by simp⟩
          constructor
          · intro _
            exact ⟨last, rfl, Or.inr (by simpa using h2)⟩
          · intro _; trivial
        · rw [if_neg h2]
          refine ⟨?_, by simp, by simp⟩
          constructor
          · intro hfalse
            simp at hfalse
          · rintro ⟨last', hl', hor⟩
            have hll : last' = last := (Option.some_inj.mp hl').symm
            subst hll
            rcases hor with ⟨ha, hb⟩ | ⟨ha, hb⟩
            · exact absurd (by simp [ha, hb]) h1
            · exact absurd (by simp [ha, hb]) h2
  · rw [if_neg hsig]
    refine ⟨?_, by simp, by simp⟩
    constructor
    · intro hfalse
      simp at hfalse
    · rintro ⟨last', hl', hor⟩
      rcases hor with ⟨ha, _⟩ | ⟨ha, _⟩
      · exact absurd (by simp [ha]) hsig
      · exact absurd (by simp [ha]) hsig

/-- Witness for the in-place replacement theorem: a second token-streaming
line replaces the rendered token line (count stays 1), while an ordinary
pipeline line after it appends (count becomes 2). -/
theorem renderStyledLine_replace_iff_witness :
    (renderStyledLine [("[TOKEN] Thinking... 5")] ("[TOKEN] Thinking... 6")).2
      = true ∧
    (renderStyledLine [("[TOKEN] Thinking... 5")] ("[TOKEN] Thinking... 6")).1
      = [("[TOKEN] Thinking... 6")] ∧
    (renderStyledLine [("[TOKEN] Thinking... 6")] ("[PIPELINE] done")).2
      = false ∧
    (renderStyledLine [("[TOKEN] Thinking... 6")] ("[PIPELINE] done")).1
      = [("[TOKEN] Thinking... 6"), ("[PIPELINE] done")] := by
  have h1 := renderStyledLine_replace_iff [("[TOKEN] Thinking... 5")]
    ("[TOKEN] Thinking... 6")
  have h2 := renderStyledLine_replace_iff [("[TOKEN] Thinking... 6")]
    ("[PIPELINE] done")
  have e1 : (renderStyledLine [("[TOKEN] Thinking... 5")]
      ("[TOKEN] Thinking... 6")).2 = true := by
    apply h1.1.mpr
    exact ⟨("[TOKEN] Thinking... 5"), by decide, Or.inl (by decide)⟩
  have e2 : (renderStyledLine [("[TOKEN] Thinking... 6")]
      ("[PIPELINE] done")).2 = false := by
    cases hv : (renderStyledLine [("[TOKEN] Thinking... 6")]
        ("[PIPELINE] done")).2 with
    | false => rfl
    | true =>
      obtain ⟨last', hl', hor⟩ := h2.1.mp hv
      have heq : ("[TOKEN] Thinking... 6") = last' := by
        simpa using hl'
      subst heq
      rcases hor with ⟨ha, -⟩ | ⟨ha, -⟩
      · exact absurd ha (by decide)
      · exact absurd ha (by decide)
  refine ⟨e1, ?_, e2, ?_⟩
  · simpa using h1.2.1 e1
  · simpa using h2.2.2 e2

/-- A poll response as read by `pollStatus` (part_010 lines 162-182):
`state`, the human-readable `status` text, optional `step`/`total`
progress counters, the optional log snapshot and the optional result
session id. Absent JSON fields are `none`. -/
structure PollResponse where
  state : String
  status_text : Option String := none
  step : Option ℚ := none
  total : Option ℚ := none
  logs : Option (List String) := none
  result_session_id : Option String := none
deriving Repr, DecidableEq

/-- The fixed inter-poll delay, milliseconds (part_010 line 14). -/
def POLLING_INTERVAL : ℕ := 1500

/-- The progress computation of a poll tick (part_010 lines 170-173):
`if (status.step && status.total) { pct = (step / total) * 100 }`. JS
truthiness makes the guard fail when either counter is absent or zero, so
no progress notification is emitted in those cases; otherwise the bar gets
`step / total * 100`. -/
def progressEvent (step total : Option ℚ) : Option ℚ :=
  match step, total with
  | some s, some t => if s ≠ 0 ∧ t ≠ 0 then some (s / t * 100) else none
  | _, _ => none

/-- The local state of one polling loop: whether the interval is still
scheduled (`clearInterval` not yet called) and whether an abort has been
requested by the user. -/
structure LoopState where
  polling : Bool
  abortRequested : Bool
deriving Repr, DecidableEq

/-- One scheduled tick of `pollStatus` (part_010 lines 160-186), reduced to
its effect on the loop: a tick that throws before reaching the state checks
(`api.pollTaskStatus` rejecting, fields missing) is caught by the
`catch` and changes nothing; a response in state SUCCESS or FAILURE reaches
`clearInterval` (in the SUCCESS branch before `finalizeInference` can
throw); any other state leaves the interval scheduled. A cleared interval
runs no further ticks. -/
def stepPoll (st : LoopState) (tick : Except String PollResponse) : LoopState :=
  if st.polling then
    match tick with
    | Except.error _ => st
    | Except.ok r =>
      if r.state = "SUCCESS" ∨ r.state = "FAILURE" then
        { st with polling := false }
      else st
  else st

/-- A whole sequence of scheduled ticks. -/
def runPoll (st : LoopState) (ticks : List (Except String PollResponse))
    : LoopState :=
  ticks.foldl stepPoll st

/-- The abort handler `handleAbort` (part_010 lines 142-157): disables the button and sends
the best-effort abort request; it never touches the polling interval, so
only the request flag changes. -/
def handleAbort (st : LoopState) : LoopState := { st with abortRequested := true }

/-- The message `pollStatus` surfaces on a FAILURE response (part_010
line 181): the template literal prefixes the job's `status` text with the
stopped marker. -/
def onFailureMessage (status_text : String) : String :=
  ("[STOPPED] ") ++ status_text

/-- A stopped loop stays stopped under any further ticks. -/
lemma runPoll_stopped (ticks : List (Except String PollResponse)) :
    ∀ st : LoopState, st.polling = false → runPoll st ticks = st := by
  induction ticks with
  | nil => intro st _; rfl
  | cons t rest ih =>
    intro st h
    have hstep : stepPoll st t = st := by
      unfold stepPoll
      rw [if_neg (by simp [h])]
    show runPoll (stepPoll st t) rest = st
    rw [hstep]
    exact ih st h

/-- Claim C6: polling stops exactly at a terminal state. A stopped loop
issues no further ticks' effects; a live tick stops the loop exactly when
the response's state is SUCCESS or FAILURE; an erroring tick is swallowed
and the loop keeps polling; `abort()` never changes the polling flag; and
over any whole tick sequence the loop ends stopped exactly when some
successfully parsed response carried a terminal state. -/
theorem pollStatus_stops_iff_terminal :
    (∀ (st : LoopState) (tick : Except String PollResponse),
        st.polling = false → stepPoll st tick = st)
    ∧ (∀ (st : LoopState) (r : PollResponse), st.polling = true →
        ((stepPoll st (Except.ok r)).polling = false ↔
          (r.state = "SUCCESS" ∨ r.state = "FAILURE")))
    ∧ (∀ (st : LoopState) (e : String), stepPoll st (Except.error e) = st)
    ∧ (∀ st : LoopState, (handleAbort st).polling = st.polling)
    ∧ (∀ ticks : List (Except String PollResponse),
        (runPoll { polling := true, abortRequested := false } ticks).polling
            = false ↔
          ∃ r : PollResponse, Except.ok r ∈ ticks ∧
            (r.state = "SUCCESS" ∨ r.state = "FAILURE")) := by
  have hdead : ∀ (st : LoopState) (tick : Except String PollResponse),
      st.polling = false → stepPoll st tick = st := by
    intro st tick h
    unfold stepPoll
    rw [if_neg (by simp [h])]
  have herr : ∀ (st : LoopState) (e : String),
      stepPoll st (Except.error e) = st := by
    intro st e
    unfold stepPoll
    by_cases h : st.polling = true
    · rw [if_pos h]
    · rw [if_neg h]
  have hlive : ∀ (st : LoopState) (r : PollResponse), st.polling = true →
      ((stepPoll st (Except.ok r)).polling = false ↔
        (r.state = "SUCCESS" ∨ r.state = "FAILURE")) := by
    intro st r h
    unfold stepPoll
    rw [if_pos h]
    by_cases hterm : r.state = "SUCCESS" ∨ r.state = "FAILURE"
    · simp [hterm]
    · simp [hterm, h]
  have hrun : ∀ (ticks : List (Except String PollResponse)) (st : LoopState),
      st.polling = true →
      ((runPoll st ticks).polling = false ↔
        ∃ r : PollResponse, Except.ok r ∈ ticks ∧
          (r.state = "SUCCESS" ∨ r.state = "FAILURE")) := by
    intro ticks
    induction ticks with
    | nil =>
      intro st h
      simp [runPoll, h]
    | cons t rest ih =>
      intro st h
      show (runPoll (stepPoll st t) rest).polling = false ↔ _
      cases t with
      | error e =>
        rw [herr st e, ih st h]
        constructor
        · rintro ⟨r, hmem, hterm⟩
          exact ⟨r, by simp [hmem], hterm⟩
        · rintro ⟨r, hmem, hterm⟩
          simp at hmem
          exact ⟨r, hmem, hterm⟩
      | ok r =>
        by_cases hterm : r.state = "SUCCESS" ∨ r.state = "FAILURE"
        · have hstop : (stepPoll st (Except.ok r)).polling = false :=
            (hlive st r h).mpr hterm
          have hstate : stepPoll st (Except.ok r) =
              { st with polling := false } := by
            unfold stepPoll
            rw [if_pos h]
            dsimp only
            rw [if_pos hterm]
          rw [hstate, runPoll_stopped rest _ rfl]
          simp only [true_iff]
          exact ⟨r, by simp, hterm⟩
        · have hstate : stepPoll st (Except.ok r) = st := by
            unfold stepPoll
            rw [if_pos h]
            dsimp only
            rw [if_neg hterm]
          rw [hstate, ih st h]
          constructor
          · rintro ⟨r', hmem, hterm'⟩
            exact ⟨r', by simp [hmem], hterm'⟩
          · rintro ⟨r', hmem, hterm'⟩
            simp at hmem
            rcases hmem with heq | hmem
            · subst heq
              exact absurd hterm' hterm
            · exact ⟨r', hmem, hterm'⟩
  exact ⟨hdead, hlive, herr, fun _ => rfl, fun ticks => hrun ticks _ rfl⟩

/-- Witness for the stop-iff-terminal theorem on concrete tick sequences:
an error tick followed by PROGRESS keeps the loop live; appending a SUCCESS
tick stops it; an abort request leaves the polling flag set. -/
theorem pollStatus_stops_iff_terminal_witness :
    (runPoll { polling := true, abortRequested := false }
        [Except.error ("network"), Except.ok { state := ("PROGRESS") }]).polling
      = true ∧
    (runPoll { polling := true, abortRequested := false }
        [Except.error ("network"), Except.ok { state := ("PROGRESS") },
         Except.ok { state := ("SUCCESS") }]).polling = false ∧
    (handleAbort { polling := true, abortRequested := false }).polling = true := by
  refine ⟨?_, ?_, pollStatus_stops_iff_terminal.2.2.2.1
      { polling := true, abortRequested := false }⟩
  · cases hv : (runPoll { polling := true, abortRequested := false }
        [Except.error ("network"), Except.ok { state := ("PROGRESS") }]).polling with
    | true => rfl
    | false =>
      obtain ⟨r, hmem, hterm⟩ :=
        (pollStatus_stops_iff_terminal.2.2.2.2 _).mp hv
      simp at hmem
      subst hmem
      simp at hterm
  · apply (pollStatus_stops_iff_terminal.2.2.2.2 _).mpr
    exact ⟨{ state := ("SUCCESS") }, by simp, Or.inl rfl⟩

/-- Claim C5 counterexample: a tick carrying step 1 and total 0. The claim
says the divide-by-zero guard reports progress 0; the code's truthiness
guard `if (status.step && status.total)` is false at total 0, so the tick
emits no progress notification at all — in particular not 0. -/
theorem progressEvent_total_zero_reports_nothing :
    progressEvent (some 1) (some 0) = none ∧
    progressEvent (some 1) (some 0) ≠ some 0 := by
  refine ⟨?_, ?_⟩
  · simp [progressEvent]
  · simp [progressEvent]

/-- Claim C5 (amended): on a poll tick whose response carries nonzero
`step` and nonzero `total`, the poller emits the progress percentage
`step / total * 100` (step 1 of total 4 yields 25); when either counter is
absent or zero — including total = 0, the divide-by-zero case — the
truthiness guard skips the update and no progress notification is emitted
(rather than one reporting 0). -/
theorem progressEvent_guarded :
    (∀ s t : ℚ, s ≠ 0 → t ≠ 0 →
        progressEvent (some s) (some t) = some (s / t * 100))
    ∧ (∀ s : Option ℚ, progressEvent s none = none)
    ∧ (∀ t : Option ℚ, progressEvent none t = none)
    ∧ (∀ s : ℚ, progressEvent (some s) (some 0) = none)
    ∧ (∀ t : ℚ, progressEvent (some 0) (some t) = none)
    ∧ progressEvent (some 1) (some 4) = some 25 := by
  refine ⟨?_, ?_, ?_, ?_, ?_, ?_⟩
  · intro s t hs ht
    simp [progressEvent, hs, ht]
  · intro s
    cases s with
    | none => rfl
    | some v => rfl
  · intro t; rfl
  · intro s
    simp [progressEvent]
  · intro t
    simp [progressEvent]
  · norm_num [progressEvent]

/-- Witness for the guarded-progress theorem: the first poll of the spec's
scenario, step 1 of total 4, yields exactly 25 percent. -/
theorem progressEvent_guarded_witness :
    progressEvent (some 1) (some 4) = some 25 ∧
    progressEvent (some 3) (some 4) = some 75 := by
  refine ⟨progressEvent_guarded.2.2.2.2.2, ?_⟩
  have h := progressEvent_guarded.1 3 4 (by norm_num) (by norm_num)
  rw [h]
  norm_num

/-- Claim C7 counterexample: on a FAILURE response with status text
`disk full`, the message handed to the console is `[STOPPED] disk full`,
not the literal status text verbatim. -/
theorem onFailureMessage_not_verbatim :
    onFailureMessage ("disk full") = ("[STOPPED] disk full") ∧
    onFailureMessage ("disk full") ≠ ("disk full") := by
  constructor
  · rfl
  · decide

/-- Claim C7 (amended): on a FAILURE response, the surfaced terminal message
is `[STOPPED] ` followed by the job snapshot's `status_text` — the status
text is included verbatim as the message's suffix, behind the fixed stopped
marker, and is never passed bare; the FAILURE tick clears the interval, and
a stopped loop never restarts by itself, so no automatic retry of the
failed job occurs. -/
theorem failure_surfaces_status_text (status_text : String) (st : LoopState)
    (r : PollResponse) (ticks : List (Except String PollResponse))
    (hpolling : st.polling = true) (hfail : r.state = "FAILURE") :
    onFailureMessage status_text = ("[STOPPED] ") ++ status_text ∧
    List.IsSuffix status_text.data (onFailureMessage status_text).data ∧
    onFailureMessage status_text ≠ status_text ∧
    (stepPoll st (Except.ok r)).polling = false ∧
    runPoll { st with polling := false } ticks = { st with polling := false } := by
  refine ⟨rfl, ?_, ?_, ?_, ?_⟩
  · exact ⟨("[STOPPED] ").data, (String.data_append _ _).symm⟩
  · intro h
    have hlen := congrArg String.length h
    simp [onFailureMessage, String.length_append] at hlen
    exact absurd hlen (by decide)
  · unfold stepPoll
    rw [if_pos hpolling]
    dsimp only
    rw [if_pos (Or.inr hfail)]
  · exact runPoll_stopped ticks _ rfl

/-- Witness for the failure-surfacing theorem: a FAILURE tick on a live
loop with status text `oom`, followed by two more ticks that the stopped
loop ignores. -/
theorem failure_surfaces_status_text_witness :
    onFailureMessage ("oom") = ("[STOPPED] oom") ∧
    (stepPoll { polling := true, abortRequested := false }
        (Except.ok { state := ("FAILURE"), status_text := some ("oom") })).polling
      = false := by
  have h := failure_surfaces_status_text ("oom")
    { polling := true, abortRequested := false }
    { state := ("FAILURE"), status_text := some ("oom") }
    [Except.ok { state := ("PROGRESS") }] rfl rfl
  exact ⟨h.1, h.2.2.2.1⟩
